import Mathlib

/-!
# Environment discovery and caching engine: verification

A shallow embedding of the environment-discovery and caching subsystem of
`nuitka-tool.py` (classes `CacheManager`, `PythonDetectionThread`,
`VersionCheckThread`, and the cache-invalidation helpers of `NuitkaPackager`),
together with proofs and refutations of the specification's claims about it.

Times are modelled as `Int` seconds; a `timedelta(days = d)` comparison in the
source becomes a comparison against `d * 86400`.  Filesystem state is modelled
by explicit views (`FsView`) whose fields mirror the `os.path` queries the
source performs.
-/

namespace NuitkaTool

/-- Seconds in a day: `timedelta(days = d)` is `d * secondsPerDay` seconds. -/
def secondsPerDay : Int := 86400

/-- `CACHE_EXPIRY_DAYS = 7` (line 41 of the source). -/
def CACHE_EXPIRY_DAYS : Int := 7

/-!
## CacheManager: the version cache (`version_cache.json`)

The JSON file holds an object keyed by an MD5 cache key; each entry stores
`python_version`, `nuitka_version` and an ISO timestamp.  We model the parsed
file as an association list and the timestamp as `Option Int`
(`none` models a missing or unparseable `timestamp` field, the case the source
handles with `except` around `datetime.fromisoformat`).
-/

/-- One entry of `version_cache.json`. -/
structure VersionEntry where
  pythonVersion : Option String
  nuitkaVersion : Option String
  timestamp : Option Int
deriving DecidableEq, Repr

/-- The parsed contents of `version_cache.json`: a JSON object. -/
abbrev VersionStore := List (String × VersionEntry)

/-- Which statistics counter a cache operation bumped. -/
inductive CacheOutcome where
  | hit
  | miss
  | error
deriving DecidableEq, Repr

/-- Dictionary lookup `cache_data[cache_key]` (as `Option`). -/
def lookupEntry : VersionStore → String → Option VersionEntry
  | [], _ => none
  | (k, e) :: rest, key => if k = key then some e else lookupEntry rest key

/-- `del cache_data[cache_key]` on the parsed JSON object. -/
def eraseKey : VersionStore → String → VersionStore
  | [], _ => []
  | (k, e) :: rest, key =>
    if k = key then eraseKey rest key else (k, e) :: eraseKey rest key

/-- Result of `CacheManager.get_cached_versions`: the returned version pair,
the store as left on disk afterwards, whether the file was rewritten, and the
statistics counter that was bumped. -/
structure VersionLookupResult where
  pythonVersion : Option String
  nuitkaVersion : Option String
  store : VersionStore
  rewrote : Bool
  outcome : CacheOutcome
deriving DecidableEq, Repr

/-- `CacheManager.get_cached_versions` (source lines 166-223).  `fileExists`
models `os.path.exists(self.version_cache_file)`; `key` is the already-computed
`_get_cache_key(python_cmd)`; `now` is `datetime.now()`; `days` is
`self.cache_duration_days`.  An entry older than the expiry is deleted and the
file rewritten before a miss is reported. -/
def get_cached_versions (fileExists : Bool) (store : VersionStore) (key : String)
    (now days : Int) : VersionLookupResult :=
  if fileExists = false then
    ⟨none, none, store, false, .miss⟩
  else
    match lookupEntry store key with
    | none => ⟨none, none, store, false, .miss⟩
    | some e =>
      match e.timestamp with
      | none => ⟨none, none, store, false, .miss⟩
      | some t =>
        if now - t > days * secondsPerDay then
          ⟨none, none, eraseKey store key, true, .miss⟩
        else
          ⟨e.pythonVersion, e.nuitkaVersion, store, false, .hit⟩

/-- The keep-condition of `cleanup_expired_cache`: `current_time - cache_time
<= timedelta(days)` with a parseable timestamp; entries failing it (stale or
unparseable) are dropped. -/
def entryFresh (now days : Int) (e : VersionEntry) : Bool :=
  match e.timestamp with
  | some t => now - t ≤ days * secondsPerDay
  | none => false

/-- The claim's removal condition: the stored timestamp is strictly older than
the configured duration. -/
def entryStrictlyOlder (now days : Int) (e : VersionEntry) : Prop :=
  ∃ t, e.timestamp = some t ∧ now - t > days * secondsPerDay

/-- `CacheManager.cleanup_expired_cache` (source lines 405-446): returns the
number of removed entries and the store as left on disk. -/
def cleanup_expired_cache (fileExists : Bool) (store : VersionStore)
    (now days : Int) : Nat × VersionStore :=
  if fileExists = false then
    (0, store)
  else
    let valid := store.filter fun p => entryFresh now days p.2
    if valid.length < store.length then
      (store.length - valid.length, valid)
    else
      (0, store)

/-- `CacheManager.get_cached_python_paths` (source lines 339-378).  The cache
is `python_paths_cache.pkl`, modelled as its contents plus the file's
modification time (`none` when the file is absent); expiry compares the file's
age against `cache_duration_days`. -/
def get_cached_python_paths (checkExpiry : Bool)
    (cache : Option (List String × Int)) (now days : Int) : Option (List String) :=
  match cache with
  | none => none
  | some (paths, mtime) =>
    if checkExpiry = true ∧ now - mtime > days * secondsPerDay then none
    else some paths

/-!
## PythonDetectionThread: the discovery worker

`run` (source lines 1200-1247) consults the pickle cache, else runs
`_perform_full_python_detection` (lines 1577-1764), which aggregates candidate
paths from the combined environment scan, environment variables, the PATH
variable (with a cancellation checkpoint per PATH directory) and the Windows
registry, deduplicates via `list(set(...))`, saves the result to the pickle
cache and returns it; `run` then deduplicates again, sorts by path length
(Python's stable sort) and emits `detection_completed(paths, False)`.

`list(set(xs))` yields the elements of `xs` without duplicates in an
unspecified (hash-dependent) order; it is modelled by a function parameter
constrained by `IsSetListing`.
-/

/-- A valid behaviour of Python's `list(set(xs))`: a duplicate-free listing of
exactly the elements of `xs`, in some order. -/
def IsSetListing (f : List String → List String) : Prop :=
  ∀ xs : List String, (f xs).Nodup ∧ ∀ a, a ∈ f xs ↔ a ∈ xs

/-- `if full_path not in python_paths: python_paths.append(full_path)`. -/
def insertNew (acc : List String) (x : String) : List String :=
  if x ∈ acc then acc else acc ++ [x]

/-- Append each element of `xs` to `acc` unless already present. -/
def addAll (acc : List String) (xs : List String) : List String :=
  xs.foldl insertNew acc

/-- The candidate paths each stage of `_perform_full_python_detection` would
contribute, in source order.  `combined` is the concatenation the three
`python_paths.extend(...)` calls produce from `_detect_environments_combined`;
`envVarPaths` are the `python.exe` candidates from the environment-variable
loop that pass `os.path.isfile`; `pathDirs` holds, per PATH directory, the
interpreter files found there in name order; `registryPaths` is the list
built by the registry scan. -/
structure ScanSources where
  combined : List String
  envVarPaths : List String
  pathDirs : List (List String)
  registryPaths : List String
deriving DecidableEq, Repr

/-- Where, if anywhere, the cooperative cancellation flag (`_is_running`
cleared by `stop`, or `_check_timeout` firing) is first observed. -/
inductive CancelPoint where
  /-- Never observed: the run completes and emits a result. -/
  | noCancel
  /-- Observed at the checkpoint right after `_detect_environments_combined`
  (line 1604): the scan returns its (still empty) list without saving. -/
  | afterCombined
  /-- Observed at the top of the PATH loop after `k` directories were
  processed (line 1668): the loop breaks, but the registry scan, the
  deduplication and the cache save still execute. -/
  | duringPath (k : Nat)
  /-- Observed only at the post-scan check in `run` (line 1231): the scan ran
  to completion and saved its result, but nothing is emitted. -/
  | postScan
deriving DecidableEq, Repr

/-- The aggregation order of `_perform_full_python_detection`, with the PATH
loop truncated to its first `dirCount` directories. -/
def collectAll (src : ScanSources) (dirCount : Nat) : List String :=
  addAll ((src.pathDirs.take dirCount).foldl addAll
    (addAll src.combined src.envVarPaths)) src.registryPaths

/-- `_perform_full_python_detection` (source lines 1577-1764): returns the
list the function returns together with the payload written to the pickle
cache (`none` when `save_cached_python_paths` is never reached).  `setListing`
models the `list(set(python_paths))` at line 1747. -/
def performFull (src : ScanSources) (cancel : CancelPoint)
    (setListing : List String → List String) :
    List String × Option (List String) :=
  match cancel with
  | .afterCombined => ([], none)
  | .duringPath k =>
    let d := setListing (collectAll src k)
    (d, some d)
  | .noCancel =>
    let d := setListing (collectAll src src.pathDirs.length)
    (d, some d)
  | .postScan =>
    let d := setListing (collectAll src src.pathDirs.length)
    (d, some d)

/-- Stable insertion by ascending path length: the new element passes every
element of strictly smaller length and stops in front of the first element of
greater or equal length, so earlier elements of equal length stay in front. -/
def insertByLen (x : String) : List String → List String
  | [] => [x]
  | b :: bs =>
    if b.length < x.length then b :: insertByLen x bs else x :: b :: bs

/-- `python_paths.sort(key = lambda x: len(x))`: Python's stable sort by path
length, modelled as a stable insertion sort. -/
def sortByLen : List String → List String
  | [] => []
  | x :: xs => insertByLen x (sortByLen xs)

/-- Outcome of one `PythonDetectionThread.run`: the payload of the single
`detection_completed(paths, from_cache)` emission, if any, and the payload
written to the pickle cache during this attempt, if any. -/
structure RunResult where
  emitted : Option (List String × Bool)
  cacheWrite : Option (List String)
deriving DecidableEq, Repr

/-- The host state one `PythonDetectionThread.run` executes against.
`cache` is the pickle file (contents and file modification time, `none` when
absent); `rootMtime` gives every environment root directory's modification
time — present in the host state although the threaded run never consults it;
`sl1` and `sl2` model the `list(set(...))` calls at lines 1747 and 1236. -/
structure RunState where
  force : Bool
  cache : Option (List String × Int)
  now : Int
  expiryDays : Int
  rootMtime : String → Int
  src : ScanSources
  cancel : CancelPoint
  sl1 : List String → List String
  sl2 : List String → List String

/-- The scan-and-emit tail of `run` (lines 1226-1241): perform the full
detection, then, unless the cancellation flag was raised, deduplicate, sort by
length and emit with `from_cache = False`. -/
def runScan (s : RunState) : RunResult :=
  let pr := performFull s.src s.cancel s.sl1
  if s.cancel = .noCancel then
    { emitted := some (sortByLen (s.sl2 pr.1), false), cacheWrite := pr.2 }
  else
    { emitted := none, cacheWrite := pr.2 }

/-- `PythonDetectionThread.run` (source lines 1200-1247): without `force`, a
fresh, non-empty cached list is emitted as-is with `from_cache = True`;
otherwise the full scan runs. -/
def threadRun (s : RunState) : RunResult :=
  if s.force = true then runScan s
  else
    match get_cached_python_paths true s.cache s.now s.expiryDays with
    | none => runScan s
    | some paths =>
      if paths = [] then runScan s
      else { emitted := some (paths, true), cacheWrite := none }

/-!
## Validator, cache invalidator and the synchronous discovery path
-/

/-- A view of the filesystem queries the source performs: `os.path.isfile`,
`os.path.isdir`, `os.path.exists`, and `os.path.getmtime` where `none` models
the call raising `OSError`. -/
structure FsView where
  isFile : String → Bool
  isDir : String → Bool
  pathExists : String → Bool
  mtimeOf : String → Option Int

/-- `os.path.join` on the Windows host the tool targets. -/
def pjoin (a b : String) : String := a ++ "\\" ++ b

/-- `PythonDetectionThread._is_valid_virtual_environment` (source lines
2121-2153): requires `Scripts\python.exe` to exist, then accepts on
`pyvenv.cfg`, on a `conda-meta` directory, or on `Lib\site-packages`. -/
def is_valid_virtual_environment (fs : FsView) (envRoot : String) : Bool :=
  if fs.isFile (pjoin (pjoin envRoot "Scripts") "python.exe") = false then false
  else if fs.isFile (pjoin envRoot "pyvenv.cfg") = true then true
  else if fs.isDir (pjoin envRoot "conda-meta") = true then true
  else if fs.isDir (pjoin (pjoin envRoot "Lib") "site-packages") = true then true
  else false

/-- Substring test on character lists (Python's `needle in hay`). -/
def containsSub (needle : List Char) : List Char → Bool
  | [] => needle.isEmpty
  | c :: rest => needle.isPrefixOf (c :: rest) || containsSub needle rest

/-- Python's `needle in hay` on strings. -/
def strContains (hay needle : String) : Bool :=
  containsSub needle.toList hay.toList

/-- Python's `str.lower()` (character-wise lowering). -/
def pyLower (s : String) : String := ⟨s.data.map Char.toLower⟩

/-- The environment variables `_is_cache_valid` consults. -/
structure EnvView where
  pathVar : String
  virtualEnv : String

/-- The `my_venv_nuitka` loop of `_is_cache_valid` (source lines 4963-4976):
`true` when some matching cached path triggers an early `return False`. -/
def venvNuitkaViolation (fs : FsView) (env : EnvView) : List String → Bool
  | [] => false
  | p :: ps =>
    if strContains (pyLower p) "my_venv_nuitka" = true then
      if fs.pathExists p = false then true
      else if strContains env.pathVar p = false ∧ env.virtualEnv = "" then true
      else venvNuitkaViolation fs env ps
    else venvNuitkaViolation fs env ps

/-- Whether any cached path mentions `my_venv_nuitka` (the
`virtual_env_in_cache` flag of `_is_cache_valid`). -/
def anyVenvNuitkaPath (paths : List String) : Bool :=
  paths.any fun p => strContains (pyLower p) "my_venv_nuitka"

/-- The per-path environment-root modification-time loop of `_is_cache_valid`
(source lines 4989-5008): `true` when some resolvable, existing root's
modification time is newer than `lastDetection - 300`; a failing
`os.path.getmtime` is skipped with `continue`. -/
def rootsViolation (fs : FsView) (getRoot : String → Option String)
    (lastDetection : Int) : List String → Bool
  | [] => false
  | p :: ps =>
    match getRoot p with
    | none => rootsViolation fs getRoot lastDetection ps
    | some r =>
      if fs.pathExists r = true then
        match fs.mtimeOf r with
        | some m =>
          if m > lastDetection - 300 then true
          else rootsViolation fs getRoot lastDetection ps
        | none => rootsViolation fs getRoot lastDetection ps
      else rootsViolation fs getRoot lastDetection ps

/-- The environment-manager `envs` directory loop of `_is_cache_valid`
(source lines 5011-5024), with the same skip-on-error behaviour. -/
def managersViolation (fs : FsView) (lastDetection : Int) : List String → Bool
  | [] => false
  | mg :: ms =>
    if fs.pathExists (pjoin mg "envs") = true then
      match fs.mtimeOf (pjoin mg "envs") with
      | some m =>
        if m > lastDetection - 300 then true
        else managersViolation fs lastDetection ms
      | none => managersViolation fs lastDetection ms
    else managersViolation fs lastDetection ms

/-- `NuitkaPackager._is_cache_valid` (source lines 4918-5027).
`lastDetection` is the parsed contents of `last_detection_timestamp.txt`
(`none` when the file is absent or unreadable); `getRoot` models
`self._get_virtual_env_root`; `managers` holds the paths of the installed
environment managers returned by `self._get_env_managers`. -/
def is_cache_valid (cachedPaths : List String) (lastDetection : Option Int)
    (fs : FsView) (env : EnvView) (getRoot : String → Option String)
    (managers : List String) : Bool :=
  match lastDetection with
  | none => false
  | some t =>
    if venvNuitkaViolation fs env cachedPaths = true then false
    else if anyVenvNuitkaPath cachedPaths = true ∧ env.virtualEnv = "" then false
    else if rootsViolation fs getRoot t cachedPaths = true then false
    else if managersViolation fs t managers = true then false
    else true

/-- The cache decision of `NuitkaPackager.auto_detect_python` (source lines
4745-4765): `true` exactly when the cached result is used instead of a full
detection (`force` unset, `_load_from_cache` truthy, `_is_cache_valid`). -/
def auto_detect_uses_cache (force : Bool) (cached : Option (List String))
    (valid : List String → Bool) : Bool :=
  if force = true then false
  else
    match cached with
    | none => false
    | some paths => if paths = [] then false else valid paths

/-!
## Version probe subprocess invocations

`VersionCheckThread._get_python_version` (source lines 666-702) and
`VersionCheckThread._get_nuitka_version` (lines 704-743) each call
`subprocess.run` once; the keyword arguments passed are the argument vector,
the captured pipes and `startupinfo` — no `timeout` keyword appears, so the
call waits indefinitely.  `PythonDetectionThread._get_python_version_info`
(lines 1766-1789) passes `timeout=10` to each of its two invocations.
-/

/-- What a `subprocess.run` call site is invoked with: the argument vector and
the value of its `timeout` keyword (`none` when the keyword is absent, so the
wait is unbounded). -/
structure SubprocessInvocation where
  args : List String
  timeoutSeconds : Option Nat
deriving DecidableEq, Repr

/-- The invocation made by `VersionCheckThread._get_python_version`. -/
def versionCheckPythonInvocation (pythonCmd : String) : SubprocessInvocation :=
  { args := [pythonCmd, "--version"], timeoutSeconds := none }

/-- The invocation made by `VersionCheckThread._get_nuitka_version`. -/
def versionCheckNuitkaInvocation (pythonCmd : String) : SubprocessInvocation :=
  { args := [pythonCmd, "-m", "nuitka", "--version"], timeoutSeconds := none }

/-- The first invocation made by
`PythonDetectionThread._get_python_version_info` (`timeout=10`). -/
def detectionPythonVersionInvocation (pythonPath : String) : SubprocessInvocation :=
  { args := [pythonPath, "--version"], timeoutSeconds := some 10 }

/-!
## Auxiliary notions and concrete fixtures
-/

/-- Lexicographic comparison of character lists by code point, Python's `<=`
on strings; used to state the spec's lexical tie-break. -/
def charListLe : List Char → List Char → Bool
  | [], _ => true
  | _ :: _, [] => false
  | a :: as, b :: bs =>
    if a < b then true else if b < a then false else charListLe as bs

/-- The list a completed full scan returns (and writes to the pickle cache):
`list(set(...))` applied to the full aggregation. -/
def fullScanList (src : ScanSources) (sl1 : List String → List String) :
    List String :=
  sl1 (collectAll src src.pathDirs.length)

/-- Python's `list(set(xs))` keeps exactly the distinct elements; `List.dedup`
is one concrete such listing, used to instantiate witnesses. -/
def dedupListing : List String → List String := fun xs => xs.dedup

/-- Host state for a first discovery run: empty cache, two PATH directories
holding `ab` and `c`.  `id` is the set listing the process happens to
produce (both aggregates are duplicate-free, so the identity listing is a
possible hash order). -/
def stateFirstRun : RunState :=
  ⟨false, none, 0, 7, fun _ => 0, ⟨[], [], [["ab"], ["c"]], []⟩, .noCancel,
    id, id⟩

/-- The immediately following run: the pickle cache now holds the list the
first run wrote, one second later, nothing on disk changed. -/
def stateSecondRun : RunState :=
  ⟨false, some (["ab", "c"], 0), 1, 7, fun _ => 0, ⟨[], [], [["ab"], ["c"]], []⟩,
    .noCancel, id, id⟩

/-- A forced run over two equal-length candidates whose set order is
`["b", "a"]`. -/
def stateTie : RunState :=
  ⟨true, none, 0, 7, fun _ => 0, ⟨[], [], [["b"], ["a"]], []⟩, .noCancel,
    id, id⟩

/-- A run whose cancellation flag is observed at the second PATH-loop
checkpoint: only the first of the two PATH directories was scanned. -/
def stateCancelled : RunState :=
  ⟨true, none, 0, 7, fun _ => 0, ⟨[], [], [["a"], ["bb"]], []⟩, .duringPath 1,
    id, id⟩

/-- A non-forced run against a fresh, non-empty pickle cache in a host state
where every environment root directory's modification time equals `now`
(that is, every root was just touched). -/
def stateTouchedRoot : RunState :=
  ⟨false, some (["C:\\envs\\env1\\python.exe"], 100), 100, 7, fun _ => 100,
    ⟨[], [], [], []⟩, .noCancel, id, id⟩

/-- Both relevant environment variables empty. -/
def envEmpty : EnvView := ⟨"", ""⟩

/-- A filesystem where the root `R` and the manager `envs` directory `M\envs`
exist but every `os.path.getmtime` call raises. -/
def fsErr : FsView :=
  ⟨fun _ => false, fun _ => false,
    fun x => decide (x = "R" ∨ x = "M\\envs"), fun _ => none⟩

/-- A filesystem where the root `S` and the manager `envs` directory `N\envs`
exist but every `os.path.getmtime` call raises. -/
def fsErr2 : FsView :=
  ⟨fun _ => false, fun _ => false,
    fun x => decide (x = "S" ∨ x = "N\\envs"), fun _ => none⟩

/-- A filesystem holding exactly one file: `env\pyvenv.cfg`. -/
def fsOnlyManifest : FsView :=
  ⟨fun x => decide (x = "env\\pyvenv.cfg"), fun _ => false,
    fun x => decide (x = "env" ∨ x = "env\\pyvenv.cfg"), fun _ => none⟩

/-- A filesystem where `venv` holds the manifest and the interpreter. -/
def fsManifestVenv : FsView :=
  ⟨fun x => decide (x = "venv\\pyvenv.cfg" ∨ x = "venv\\Scripts\\python.exe"),
    fun _ => false,
    fun x => decide (x = "venv"), fun _ => none⟩

/-- An entirely empty filesystem. -/
def fsBare : FsView := ⟨fun _ => false, fun _ => false, fun _ => false, fun _ => none⟩

/-- A filesystem where the environment root `C:\venv` exists with modification
time 5 and nothing else is visible. -/
def fsTouched : FsView :=
  ⟨fun _ => false, fun _ => false, fun x => decide (x = "C:\\venv"),
    fun x => if x = "C:\\venv" then some 5 else none⟩

/-!
## Helper lemmas
-/

theorem isSetListing_dedup : IsSetListing dedupListing := fun xs =>
  ⟨List.nodup_dedup xs, fun _ => List.mem_dedup⟩

theorem insertByLen_perm (x : String) (l : List String) :
    List.Perm (insertByLen x l) (x :: l) := by
  induction l with
  | nil => exact List.Perm.refl _
  | cons b bs ih =>
    by_cases h : b.length < x.length
    · rw [insertByLen, if_pos h]
      exact (ih.cons b).trans (List.Perm.swap x b bs)
    · rw [insertByLen, if_neg h]

theorem sortByLen_perm (l : List String) : List.Perm (sortByLen l) l := by
  induction l with
  | nil => exact List.Perm.refl _
  | cons x xs ih =>
    exact (insertByLen_perm x (sortByLen xs)).trans (ih.cons x)

theorem mem_sortByLen {a : String} {l : List String} :
    a ∈ sortByLen l ↔ a ∈ l :=
  (sortByLen_perm l).mem_iff

theorem nodup_sortByLen {l : List String} (h : l.Nodup) :
    (sortByLen l).Nodup :=
  (sortByLen_perm l).nodup_iff.mpr h

theorem mem_insertByLen {a x : String} {l : List String} :
    a ∈ insertByLen x l ↔ a = x ∨ a ∈ l := by
  rw [(insertByLen_perm x l).mem_iff, List.mem_cons]

theorem sorted_insertByLen (x : String) (l : List String)
    (h : l.Pairwise fun a b => a.length ≤ b.length) :
    (insertByLen x l).Pairwise fun a b => a.length ≤ b.length := by
  induction l with
  | nil => simp [insertByLen]
  | cons b bs ih =>
    rw [List.pairwise_cons] at h
    by_cases hlt : b.length < x.length
    · rw [insertByLen, if_pos hlt, List.pairwise_cons]
      refine ⟨fun y hy => ?_, ih h.2⟩
      rcases mem_insertByLen.mp hy with rfl | hy
      · exact le_of_lt hlt
      · exact h.1 y hy
    · rw [insertByLen, if_neg hlt, List.pairwise_cons]
      refine ⟨fun y hy => ?_, List.pairwise_cons.mpr h⟩
      rcases List.mem_cons.mp hy with rfl | hy
      · exact le_of_not_lt hlt
      · exact le_trans (le_of_not_lt hlt) (h.1 y hy)

theorem sorted_sortByLen (l : List String) :
    (sortByLen l).Pairwise fun a b => a.length ≤ b.length := by
  induction l with
  | nil => simp [sortByLen]
  | cons x xs ih => exact sorted_insertByLen x (sortByLen xs) ih

theorem length_filter_add_not {α : Type} (p : α → Bool) (l : List α) :
    (l.filter p).length + (l.filter fun a => !(p a)).length = l.length := by
  induction l with
  | nil => rfl
  | cons a l ih =>
    by_cases h : p a = true
    · rw [List.filter_cons_of_pos h, List.filter_cons_of_neg (by simp [h])]
      simp only [List.length_cons]
      omega
    · rw [List.filter_cons_of_neg h, List.filter_cons_of_pos (by simp [h])]
      simp only [List.length_cons]
      omega

theorem filter_eq_self_of_length {α : Type} (p : α → Bool) (l : List α)
    (h : (l.filter p).length = l.length) : l.filter p = l := by
  induction l with
  | nil => rfl
  | cons a l ih =>
    by_cases hp : p a = true
    · rw [List.filter_cons_of_pos hp] at h ⊢
      simp only [List.length_cons] at h
      rw [ih (by omega)]
    · rw [List.filter_cons_of_neg hp] at h
      have hle := List.length_filter_le p l
      simp only [List.length_cons] at h
      exact absurd h (by omega)

theorem lookupEntry_eraseKey_ne (s : VersionStore) (key k' : String)
    (h : k' ≠ key) : lookupEntry (eraseKey s key) k' = lookupEntry s k' := by
  induction s with
  | nil => rfl
  | cons p rest ih =>
    obtain ⟨k, e⟩ := p
    by_cases hk : k = key
    · have hkk : ¬ (k = k') := fun hh => h (by rw [← hh]; exact hk)
      rw [eraseKey, if_pos hk, ih, lookupEntry, if_neg hkk]
    · rw [eraseKey, if_neg hk]
      by_cases hk' : k = k'
      · rw [lookupEntry, if_pos hk', lookupEntry, if_pos hk']
      · rw [lookupEntry, if_neg hk', lookupEntry, if_neg hk', ih]

theorem length_eraseKey_le (s : VersionStore) (key : String) :
    (eraseKey s key).length ≤ s.length := by
  induction s with
  | nil => exact le_refl _
  | cons p rest ih =>
    obtain ⟨k, e⟩ := p
    by_cases hk : k = key
    · rw [eraseKey, if_pos hk]
      exact le_trans ih (Nat.le_succ _)
    · rw [eraseKey, if_neg hk, List.length_cons, List.length_cons]
      exact Nat.succ_le_succ ih

theorem length_eraseKey_lt (s : VersionStore) (key : String)
    (e : VersionEntry) (h : lookupEntry s key = some e) :
    (eraseKey s key).length < s.length := by
  induction s with
  | nil => simp [lookupEntry] at h
  | cons p rest ih =>
    obtain ⟨k, e'⟩ := p
    by_cases hk : k = key
    · rw [eraseKey, if_pos hk, List.length_cons]
      exact Nat.lt_succ_of_le (length_eraseKey_le rest key)
    · rw [lookupEntry, if_neg hk] at h
      rw [eraseKey, if_neg hk, List.length_cons, List.length_cons]
      exact Nat.succ_lt_succ (ih h)

theorem rootsViolation_eq_false (fs : FsView) (getRoot : String → Option String)
    (t : Int) (paths : List String)
    (h : ∀ p ∈ paths, ∀ r, getRoot p = some r → fs.pathExists r = true →
      fs.mtimeOf r = none) :
    rootsViolation fs getRoot t paths = false := by
  induction paths with
  | nil => rfl
  | cons p ps ih =>
    have hrest : rootsViolation fs getRoot t ps = false :=
      ih fun q hq => h q (List.mem_cons_of_mem p hq)
    cases hr : getRoot p with
    | none => simpa [rootsViolation, hr] using hrest
    | some r =>
      by_cases he : fs.pathExists r = true
      · have hm := h p (List.mem_cons_self p ps) r hr he
        simpa [rootsViolation, hr, he, hm] using hrest
      · simpa [rootsViolation, hr, he] using hrest

theorem managersViolation_eq_false (fs : FsView) (t : Int)
    (managers : List String)
    (h : ∀ m ∈ managers, fs.pathExists (pjoin m "envs") = true →
      fs.mtimeOf (pjoin m "envs") = none) :
    managersViolation fs t managers = false := by
  induction managers with
  | nil => rfl
  | cons mg ms ih =>
    have hrest : managersViolation fs t ms = false :=
      ih fun q hq => h q (List.mem_cons_of_mem mg hq)
    by_cases he : fs.pathExists (pjoin mg "envs") = true
    · have hm := h mg (List.mem_cons_self mg ms) he
      simpa [managersViolation, he, hm] using hrest
    · simpa [managersViolation, he] using hrest

theorem get_cached_versions_expired (store : VersionStore) (key : String)
    (e : VersionEntry) (t now days : Int)
    (hfind : lookupEntry store key = some e)
    (ht : e.timestamp = some t)
    (hold : now - t > days * secondsPerDay) :
    get_cached_versions true store key now days =
      ⟨none, none, eraseKey store key, true, .miss⟩ := by
  simp [get_cached_versions, hfind, ht, hold]

theorem runScan_emitted_eq (s : RunState) (ps : List String) (b : Bool)
    (h : (runScan s).emitted = some (ps, b)) :
    ps = sortByLen (s.sl2 (performFull s.src s.cancel s.sl1).1) ∧ b = false := by
  unfold runScan at h
  by_cases hc : s.cancel = .noCancel
  · rw [if_pos hc] at h
    simp only [Option.some.injEq, Prod.mk.injEq] at h
    exact ⟨h.1.symm, h.2.symm⟩
  · rw [if_neg hc] at h
    exact absurd h (by simp)

theorem threadRun_emitted_false_eq (s : RunState) (ps : List String)
    (h : (threadRun s).emitted = some (ps, false)) :
    ps = sortByLen (s.sl2 (performFull s.src s.cancel s.sl1).1) := by
  unfold threadRun at h
  by_cases hf : s.force = true
  · rw [if_pos hf] at h
    exact (runScan_emitted_eq s ps false h).1
  · rw [if_neg hf] at h
    cases hg : get_cached_python_paths true s.cache s.now s.expiryDays with
    | none =>
      rw [hg] at h
      exact (runScan_emitted_eq s ps false h).1
    | some paths =>
      rw [hg] at h
      by_cases hp : paths = []
      · have h' : (runScan s).emitted = some (ps, false) := by
          rw [hp] at h
          simp at h
          exact h
        exact (runScan_emitted_eq s ps false h').1
      · simp only [hp, reduceIte] at h
        simp at h

/-!
## Claim theorems
-/

/-- Claim C1, counterexample.  Running discovery twice in immediate
succession does NOT yield identically ordered lists: the first run caches the
pre-sort deduplicated list (`["ab", "c"]`) but emits the length-sorted list
(`["c", "ab"]`), while the second run emits the cached list unsorted (though
it is indeed served from cache). -/
theorem discovery_second_run_order_differs :
    (threadRun stateFirstRun).emitted = some (["c", "ab"], false) ∧
    (threadRun stateFirstRun).cacheWrite = some ["ab", "c"] ∧
    (threadRun stateSecondRun).emitted = some (["ab", "c"], true) ∧
    (["ab", "c"] : List String) ≠ ["c", "ab"] := by
  decide

/-- Claim C1, amended.  Running discovery twice in immediate succession with
no filesystem changes yields the same SET of paths, and — provided the first
scan found at least one path — the second run is served from the pickle cache
(`served_from_cache = true`); the emitted order may differ, because the first
run emits a length-sorted list while the cache stores the pre-sort list,
which the second run emits unchanged. -/
theorem discovery_idempotent_up_to_order
    (src : ScanSources) (sl1 sl2 : List String → List String)
    (h2 : IsSetListing sl2) (rm : String → Int) (now1 now2 days : Int)
    (hfresh : ¬ (now2 - now1 > days * secondsPerDay))
    (hne : fullScanList src sl1 ≠ []) :
    (threadRun ⟨false, none, now1, days, rm, src, .noCancel, sl1, sl2⟩).emitted =
      some (sortByLen (sl2 (fullScanList src sl1)), false) ∧
    (threadRun ⟨false, none, now1, days, rm, src, .noCancel, sl1, sl2⟩).cacheWrite =
      some (fullScanList src sl1) ∧
    (threadRun ⟨false, some (fullScanList src sl1, now1), now2, days, rm, src,
      .noCancel, sl1, sl2⟩).emitted = some (fullScanList src sl1, true) ∧
    ∀ a, a ∈ fullScanList src sl1 ↔
      a ∈ sortByLen (sl2 (fullScanList src sl1)) := by
  refine ⟨?_, ?_, ?_, ?_⟩
  · simp [threadRun, runScan, performFull, get_cached_python_paths, fullScanList]
  · simp [threadRun, runScan, performFull, get_cached_python_paths, fullScanList]
  · simp [threadRun, get_cached_python_paths, hfresh, hne]
  · intro a
    rw [mem_sortByLen, (h2 (fullScanList src sl1)).2 a]

/-- Witness for C1 (amended), at a host with one PATH directory holding `x`:
the scan finds a non-empty list and the second run serves it from cache. -/
theorem discovery_idempotent_up_to_order_witness :
    fullScanList ⟨[], [], [["x"]], []⟩ dedupListing ≠ [] ∧
    (threadRun ⟨false, some (fullScanList ⟨[], [], [["x"]], []⟩ dedupListing, 0),
      5, 7, fun _ => 0, ⟨[], [], [["x"]], []⟩, .noCancel, dedupListing,
      dedupListing⟩).emitted =
      some (fullScanList ⟨[], [], [["x"]], []⟩ dedupListing, true) :=
  ⟨by decide,
    (discovery_idempotent_up_to_order ⟨[], [], [["x"]], []⟩ dedupListing
      dedupListing isSetListing_dedup (fun _ => 0) 0 5 7 (by decide)
      (by decide)).2.2.1⟩

/-- Claim C2 (code bug).  A run whose cancellation flag is observed at the
second PATH-loop checkpoint emits no success result, yet it still writes the
partial list `["a"]` to the pickle cache (the loop `break` does not skip the
`save_cached_python_paths` call at the end of the scan); the uncancelled run
would have written `["a", "bb"]`. -/
theorem cancelled_scan_still_writes_cache :
    (threadRun stateCancelled).emitted = none ∧
    (threadRun stateCancelled).cacheWrite = some ["a"] ∧
    (threadRun { stateCancelled with cancel := .noCancel }).cacheWrite =
      some ["a", "bb"] := by
  decide

/-- Claim C3, counterexample.  A full scan over two equal-length paths whose
set order is `["b", "a"]` emits `["b", "a"]`: Python's sort by `len` is
stable, so equal-length ties keep the set order and are NOT broken by lexical
order. -/
theorem scan_emits_nonlexical_tie_order :
    (threadRun stateTie).emitted = some (["b", "a"], false) ∧
    ¬ List.Pairwise (fun a b : String => a.length < b.length ∨
      (a.length = b.length ∧ charListLe a.data b.data = true)) ["b", "a"] := by
  decide

/-- Claim C3, amended.  Every list emitted by a full scan
(`from_cache = false`) contains no duplicate path and is sorted by path
length ascending; the order of equal-length paths is the unspecified
`list(set(...))` iteration order, not a lexical tie-break. -/
theorem scan_result_nodup_sorted_by_length
    (s : RunState) (h2 : IsSetListing s.sl2) (ps : List String)
    (h : (threadRun s).emitted = some (ps, false)) :
    ps.Nodup ∧ ps.Pairwise fun a b => a.length ≤ b.length := by
  rw [threadRun_emitted_false_eq s ps h]
  exact ⟨nodup_sortByLen (h2 _).1, sorted_sortByLen _⟩

/-- Witness for C3 (amended): a concrete forced scan emits `["y", "zz"]`,
which is duplicate-free and sorted by ascending length. -/
theorem scan_result_nodup_sorted_by_length_witness :
    (threadRun ⟨true, none, 0, 7, fun _ => 0, ⟨[], [], [["y"], ["zz"]], []⟩,
      .noCancel, dedupListing, dedupListing⟩).emitted =
      some (["y", "zz"], false) ∧
    (["y", "zz"] : List String).Nodup ∧
    (["y", "zz"] : List String).Pairwise (fun a b => a.length ≤ b.length) :=
  ⟨by decide,
    scan_result_nodup_sorted_by_length
      ⟨true, none, 0, 7, fun _ => 0, ⟨[], [], [["y"], ["zz"]], []⟩,
        .noCancel, dedupListing, dedupListing⟩
      isSetListing_dedup ["y", "zz"] (by decide)⟩

/-- Claim C4.  An entry of the version cache whose timestamp is older than
the configured expiry is never returned as a hit: `get_cached_versions`
returns `(None, None)` and counts a miss; and `get_cached_python_paths` with
expiry checking enabled returns `None` when the pickle file is older than the
expiry. -/
theorem expired_entry_never_hit
    (store : VersionStore) (key : String) (e : VersionEntry) (t now days : Int)
    (hfind : lookupEntry store key = some e)
    (ht : e.timestamp = some t)
    (hold : now - t > days * secondsPerDay)
    (paths : List String) (mtime now2 days2 : Int)
    (hold2 : now2 - mtime > days2 * secondsPerDay) :
    ((get_cached_versions true store key now days).pythonVersion = none ∧
      (get_cached_versions true store key now days).nuitkaVersion = none ∧
      (get_cached_versions true store key now days).outcome = .miss) ∧
    get_cached_python_paths true (some (paths, mtime)) now2 days2 = none := by
  constructor
  · rw [get_cached_versions_expired store key e t now days hfind ht hold]
    exact ⟨rfl, rfl, rfl⟩
  · simp [get_cached_python_paths, hold2]

/-- Witness for C4: an entry stamped at time 0 looked up one second past the
7-day expiry misses, and so does a pickle cache of the same age. -/
theorem expired_entry_never_hit_witness :
    ((get_cached_versions true [("k", ⟨some "3.12.0", some "2.4.8", some 0⟩)]
        "k" 604801 7).pythonVersion = none ∧
      (get_cached_versions true [("k", ⟨some "3.12.0", some "2.4.8", some 0⟩)]
        "k" 604801 7).nuitkaVersion = none ∧
      (get_cached_versions true [("k", ⟨some "3.12.0", some "2.4.8", some 0⟩)]
        "k" 604801 7).outcome = .miss) ∧
    get_cached_python_paths true (some (["p"], 0)) 604801 7 = none :=
  expired_entry_never_hit [("k", ⟨some "3.12.0", some "2.4.8", some 0⟩)] "k"
    ⟨some "3.12.0", some "2.4.8", some 0⟩ 0 604801 7 (by decide) rfl (by decide)
    ["p"] 0 604801 7 (by decide)

/-- Claim C5, counterexample.  The discovery call that reports
`served_from_cache` is the threaded `run`; it decides from the pickle file's
own age alone and never consults any environment root's modification time.
In a host state where every root directory (in particular the cached
interpreter's root `C:\envs\env1`) has just been touched to `now`, a
non-forced discovery still reports `served_from_cache = true`. -/
theorem touched_root_still_served_from_cache :
    (threadRun stateTouchedRoot).emitted =
      some (["C:\\envs\\env1\\python.exe"], true) ∧
    stateTouchedRoot.rootMtime "C:\\envs\\env1" = stateTouchedRoot.now := by
  decide

/-- Claim C5, amended.  Touching an environment root R does not affect the
threaded discovery: while the pickle cache is fresh and non-empty it still
reports `served_from_cache = true` whatever the root modification times are.
Only the synchronous `auto_detect_python` path is sensitive: with R's
modification time set to `now` (at or after the recorded last scan),
`_is_cache_valid` returns false, so that path performs a fresh scan instead
of using the cached list. -/
theorem invalidation_sensitivity_split
    (s : RunState) (ps : List String) (m : Int)
    (hf : s.force = false) (hc : s.cache = some (ps, m))
    (hfresh : ¬ (s.now - m > s.expiryDays * secondsPerDay)) (hne : ps ≠ [])
    (p r : String) (t now : Int) (fs : FsView) (env : EnvView)
    (getRoot : String → Option String) (managers : List String)
    (hroot : getRoot p = some r) (hex : fs.pathExists r = true)
    (hmt : fs.mtimeOf r = some now) (hts : t ≤ now)
    (hnm : strContains (pyLower p) "my_venv_nuitka" = false) :
    (threadRun s).emitted = some (ps, true) ∧
    is_cache_valid [p] (some t) fs env getRoot managers = false ∧
    auto_detect_uses_cache false (some [p])
      (fun q => is_cache_valid q (some t) fs env getRoot managers) = false := by
  have hgt : now > t - 300 := by omega
  have hR : rootsViolation fs getRoot t [p] = true := by
    simp [rootsViolation, hroot, hex, hmt, hgt]
  have hA : venvNuitkaViolation fs env [p] = false := by
    simp [venvNuitkaViolation, hnm]
  have hB : anyVenvNuitkaPath [p] = false := by
    simp [anyVenvNuitkaPath, hnm]
  have hvalid : is_cache_valid [p] (some t) fs env getRoot managers = false := by
    simp [is_cache_valid, hA, hB, hR]
  refine ⟨?_, hvalid, ?_⟩
  · simp [threadRun, get_cached_python_paths, hf, hc, hfresh, hne]
  · simp [auto_detect_uses_cache, hvalid]

/-- Witness for C5 (amended): concrete fresh cache served by the thread, and
a concrete touched root rejected by `_is_cache_valid`. -/
theorem invalidation_sensitivity_split_witness :
    (threadRun ⟨false, some (["q"], 0), 5, 7, fun _ => 5, ⟨[], [], [], []⟩,
      .noCancel, id, id⟩).emitted = some (["q"], true) ∧
    is_cache_valid ["C:\\venv\\Scripts\\python.exe"] (some 2) fsTouched envEmpty
      (fun x => if x = "C:\\venv\\Scripts\\python.exe" then some "C:\\venv"
        else none) [] = false ∧
    auto_detect_uses_cache false (some ["C:\\venv\\Scripts\\python.exe"])
      (fun q => is_cache_valid q (some 2) fsTouched envEmpty
        (fun x => if x = "C:\\venv\\Scripts\\python.exe" then some "C:\\venv"
          else none) []) = false :=
  invalidation_sensitivity_split
    ⟨false, some (["q"], 0), 5, 7, fun _ => 5, ⟨[], [], [], []⟩, .noCancel,
      id, id⟩
    ["q"] 0 rfl rfl (by decide) (by decide)
    "C:\\venv\\Scripts\\python.exe" "C:\\venv" 2 5 fsTouched envEmpty
    (fun x => if x = "C:\\venv\\Scripts\\python.exe" then some "C:\\venv"
      else none) []
    (by decide) (by decide) (by decide) (by decide) (by decide)

/-- Claim C6, counterexample.  With the last-scan timestamp present, a cached
path whose environment root `R` exists but whose `os.path.getmtime` raises,
and a manager whose `M\envs` directory exists but whose `getmtime` raises,
`_is_cache_valid` returns `true`: both errors are skipped with `continue`
and the cached result IS reused, instead of defaulting to invalidation. -/
theorem mtime_error_cache_still_reused :
    is_cache_valid ["p"] (some 1000) fsErr envEmpty
      (fun q => if q = "p" then some "R" else none) ["M"] = true ∧
    fsErr.pathExists "R" = true ∧ fsErr.mtimeOf "R" = none ∧
    fsErr.pathExists "M\\envs" = true ∧ fsErr.mtimeOf "M\\envs" = none := by
  decide

/-- Claim C6, amended.  A filesystem error while reading an environment
root's or an `envs` directory's modification time causes that single check to
be skipped (`continue`), so when every such read fails and no other check
fires the cached result is reused (`_is_cache_valid = true`); only a missing
or unreadable last-scan timestamp file forces invalidation. -/
theorem invalidator_error_policy_split
    (paths : List String) (t : Int) (fs : FsView) (env : EnvView)
    (getRoot : String → Option String) (managers : List String)
    (hA : venvNuitkaViolation fs env paths = false)
    (hB : anyVenvNuitkaPath paths = false)
    (hroots : ∀ p ∈ paths, ∀ r, getRoot p = some r → fs.pathExists r = true →
      fs.mtimeOf r = none)
    (hmg : ∀ m ∈ managers, fs.pathExists (pjoin m "envs") = true →
      fs.mtimeOf (pjoin m "envs") = none) :
    is_cache_valid paths (some t) fs env getRoot managers = true ∧
    is_cache_valid paths none fs env getRoot managers = false := by
  refine ⟨?_, rfl⟩
  have hR := rootsViolation_eq_false fs getRoot t paths hroots
  have hM := managersViolation_eq_false fs t managers hmg
  simp [is_cache_valid, hA, hB, hR, hM]

/-- Witness for C6 (amended): one cached path with an erroring root read and
one manager with an erroring `envs` read. -/
theorem invalidator_error_policy_split_witness :
    is_cache_valid ["s"] (some 7) fsErr2 envEmpty
      (fun q => if q = "s" then some "S" else none) ["N"] = true ∧
    is_cache_valid ["s"] none fsErr2 envEmpty
      (fun q => if q = "s" then some "S" else none) ["N"] = false :=
  invalidator_error_policy_split ["s"] 7 fsErr2 envEmpty
    (fun q => if q = "s" then some "S" else none) ["N"]
    (by decide) (by decide)
    (fun _ _ _ _ _ => rfl) (fun _ _ _ => rfl)

/-- Claim C7, counterexample.  A directory containing only the standard
virtual-environment manifest file `pyvenv.cfg` is REJECTED by
`PythonDetectionThread._is_valid_virtual_environment`: the check first
requires `Scripts\python.exe` to exist inside the root. -/
theorem manifest_only_directory_rejected :
    is_valid_virtual_environment fsOnlyManifest "env" = false ∧
    fsOnlyManifest.isFile (pjoin "env" "pyvenv.cfg") = true ∧
    fsOnlyManifest.isFile (pjoin (pjoin "env" "Scripts") "python.exe") = false := by
  decide

/-- Claim C7, amended.  A candidate environment root containing the
interpreter executable `Scripts\python.exe` and the manifest file
`pyvenv.cfg` is accepted; a root containing only the manifest (without the
interpreter) is rejected; and a root containing none of manifest,
environment-manager metadata directory, or package-site directory is
rejected. -/
theorem validator_acceptance_amended (fs : FsView) (root : String) :
    (fs.isFile (pjoin (pjoin root "Scripts") "python.exe") = true →
      fs.isFile (pjoin root "pyvenv.cfg") = true →
      is_valid_virtual_environment fs root = true) ∧
    (fs.isFile (pjoin root "pyvenv.cfg") = false →
      fs.isDir (pjoin root "conda-meta") = false →
      fs.isDir (pjoin (pjoin root "Lib") "site-packages") = false →
      is_valid_virtual_environment fs root = false) := by
  constructor
  · intro h1 h2
    simp [is_valid_virtual_environment, h1, h2]
  · intro h1 h2 h3
    by_cases hpy : fs.isFile (pjoin (pjoin root "Scripts") "python.exe") = true
    · simp [is_valid_virtual_environment, hpy, h1, h2, h3]
    · have hpy' : fs.isFile (pjoin (pjoin root "Scripts") "python.exe") = false := by
        simpa using hpy
      simp [is_valid_virtual_environment, hpy']

/-- Witness for C7 (amended): a root with interpreter and manifest is
accepted; an empty root is rejected. -/
theorem validator_acceptance_amended_witness :
    is_valid_virtual_environment fsManifestVenv "venv" = true ∧
    is_valid_virtual_environment fsBare "venv" = false :=
  ⟨(validator_acceptance_amended fsManifestVenv "venv").1 (by decide) (by decide),
    (validator_acceptance_amended fsBare "venv").2 rfl rfl rfl⟩

/-- Claim C8, counterexample.  `cleanup_expired_cache` also removes entries
whose stored timestamp does not parse: the entry below is not strictly older
than the 7-day duration (it has no parseable timestamp at all), yet cleanup
removes it and reports one removal, where the claim predicts no removal. -/
theorem cleanup_removes_unparseable_entry :
    cleanup_expired_cache true [("k", ⟨none, none, none⟩)] 0 7 = (1, []) ∧
    ¬ entryStrictlyOlder 0 7 ⟨none, none, none⟩ := by
  constructor
  · decide
  · rintro ⟨t, ht, -⟩
    exact Option.noConfusion ht

/-- Claim C8, amended.  `cleanup_expired_cache` removes exactly the entries
that are strictly older than the configured duration or whose stored
timestamp is missing or unparseable, leaves every other entry untouched
(in order), and returns the count of removed entries. -/
theorem cleanup_exactness_amended (store : VersionStore) (now days : Int) :
    (cleanup_expired_cache true store now days).2 =
      store.filter (fun p => entryFresh now days p.2) ∧
    (cleanup_expired_cache true store now days).1 =
      (store.filter fun p => !(entryFresh now days p.2)).length := by
  have hadd := length_filter_add_not
    (fun p : String × VersionEntry => entryFresh now days p.2) store
  by_cases hlt : (store.filter fun p => entryFresh now days p.2).length <
      store.length
  · constructor
    · simp [cleanup_expired_cache, hlt]
    · simp only [cleanup_expired_cache, Bool.true_eq_false, if_neg, if_pos hlt,
        reduceIte]
      omega
  · have heq : (store.filter fun p => entryFresh now days p.2).length =
        store.length := by
      have hle := List.length_filter_le
        (fun p : String × VersionEntry => entryFresh now days p.2) store
      omega
    have hself := filter_eq_self_of_length
      (fun p : String × VersionEntry => entryFresh now days p.2) store heq
    constructor
    · simp [cleanup_expired_cache, hlt, hself]
    · simp only [cleanup_expired_cache, Bool.true_eq_false, if_neg hlt,
        reduceIte]
      omega

/-- Claim C9, counterexample.  The two out-of-process invocations of the
version probe (`VersionCheckThread._get_python_version` and
`._get_nuitka_version`) pass no `timeout` to `subprocess.run`: the wait is
unbounded, so a hung subprocess blocks the probe indefinitely. -/
theorem version_check_invocations_lack_timeout :
    (versionCheckPythonInvocation "python").timeoutSeconds = none ∧
    (versionCheckNuitkaInvocation "python").timeoutSeconds = none ∧
    (versionCheckPythonInvocation "python").args = ["python", "--version"] ∧
    (versionCheckNuitkaInvocation "python").args =
      ["python", "-m", "nuitka", "--version"] :=
  ⟨rfl, rfl, rfl, rfl⟩

/-- Claim C9, amended.  The two `VersionCheckThread` probe invocations are
made with no timeout at all (a hung subprocess can block the probe), while
the quick probe `PythonDetectionThread._get_python_version_info` subjects its
invocation to a 10-second timeout. -/
theorem version_probe_timeout_amended (p : String) :
    (versionCheckPythonInvocation p).timeoutSeconds = none ∧
    (versionCheckNuitkaInvocation p).timeoutSeconds = none ∧
    (detectionPythonVersionInvocation p).timeoutSeconds = some 10 :=
  ⟨rfl, rfl, rfl⟩

/-- Claim C10.  A lookup of an expired version-cache entry is not read-only:
it deletes exactly that entry from the record set, rewrites the cache file,
reports a miss with `(None, None)`, shrinks the on-disk record set, and
leaves every other key's entry unchanged. -/
theorem lookup_evicts_expired_entry
    (store : VersionStore) (key : String) (e : VersionEntry) (t now days : Int)
    (hfind : lookupEntry store key = some e)
    (ht : e.timestamp = some t)
    (hold : now - t > days * secondsPerDay) :
    (get_cached_versions true store key now days).rewrote = true ∧
    (get_cached_versions true store key now days).store = eraseKey store key ∧
    (get_cached_versions true store key now days).store.length < store.length ∧
    (∀ k', k' ≠ key →
      lookupEntry (get_cached_versions true store key now days).store k' =
        lookupEntry store k') ∧
    (get_cached_versions true store key now days).pythonVersion = none ∧
    (get_cached_versions true store key now days).outcome = .miss := by
  rw [get_cached_versions_expired store key e t now days hfind ht hold]
  exact ⟨rfl, rfl, length_eraseKey_lt store key e hfind,
    fun k' hk' => lookupEntry_eraseKey_ne store key k' hk', rfl, rfl⟩

/-- Witness for C10: looking up the expired entry `a` evicts it, rewrites the
store down to the fresh entry `b`, and leaves `b`'s entry readable. -/
theorem lookup_evicts_expired_entry_witness :
    (get_cached_versions true
      [("a", ⟨some "3.11.0", some "2.4.0", some 0⟩),
       ("b", ⟨some "3.12.0", none, some 604800⟩)] "a" 604801 7).rewrote = true ∧
    (get_cached_versions true
      [("a", ⟨some "3.11.0", some "2.4.0", some 0⟩),
       ("b", ⟨some "3.12.0", none, some 604800⟩)] "a" 604801 7).store =
      [("b", ⟨some "3.12.0", none, some 604800⟩)] ∧
    lookupEntry (get_cached_versions true
      [("a", ⟨some "3.11.0", some "2.4.0", some 0⟩),
       ("b", ⟨some "3.12.0", none, some 604800⟩)] "a" 604801 7).store "b" =
      some ⟨some "3.12.0", none, some 604800⟩ := by
  have h := lookup_evicts_expired_entry
    [("a", ⟨some "3.11.0", some "2.4.0", some 0⟩),
     ("b", ⟨some "3.12.0", none, some 604800⟩)] "a"
    ⟨some "3.11.0", some "2.4.0", some 0⟩ 0 604801 7 (by decide) rfl (by decide)
  refine ⟨h.1, ?_, ?_⟩
  · rw [h.2.1]
    decide
  · rw [h.2.2.2.1 "b" (by decide)]
    decide

end NuitkaTool
